import Mathlib

/-!
Verification of the generation-routing engine of the sprout_backend
repository (`src/ai_service.py`, function `generate_raw_response`, with its
helper `_call_model` and the configuration constants), against the
natural-language specification of the repository.

The backend (the `google.genai` client) is an external collaborator; one
backend invocation is modelled by an oracle
`f : String → String → Nat → Outcome` giving, for each (prompt, model,
attempt index), the outcome of that call: a returned response object
(possibly falsy, possibly with falsy text), a timeout of `asyncio.wait_for`,
or a raised exception carrying its `str(e)` text.  The router itself is
translated statement by statement from the Python source; alongside its
result it records a trace of attempt and sleep events so that ordering,
retry-count and delay properties can be stated.
-/

namespace Sprout

/-- Configuration constant `MODEL_PRIORITY` from `src/ai_service.py`. -/
def MODEL_PRIORITY : List String :=
  ["gemini-2.5-flash-lite",
   "gemini-2.5-flash",
   "gemini-2.0-flash",
   "gemini-2.0-flash-lite",
   "gemini-2.0-flash-exp",
   "gemini-2.5-pro"]

/-- Configuration constant `REQUEST_TIMEOUT` from `src/ai_service.py`
(per-attempt timeout in seconds, enforced by `asyncio.wait_for` inside
`_call_model`). -/
def REQUEST_TIMEOUT : Nat := 12

/-- Configuration constant `MAX_RETRIES` from `src/ai_service.py`. -/
def MAX_RETRIES : Nat := 2

/-- Outcome of one physical backend invocation, as seen by the `try` block of
`generate_raw_response`:
* `resp text` — the call returned a truthy response object `res` whose
  `res.text` attribute is `text` (`none` models a `None` text);
* `noResp` — the call returned a falsy `res`;
* `timeout` — `asyncio.wait_for` raised `TimeoutError` (whose `str` is the
  empty string);
* `exn msg` — the call raised some other `Exception e` with `str(e) = msg`. -/
inductive Outcome where
  | resp (text : Option String)
  | noResp
  | timeout
  | exn (msg : String)
deriving DecidableEq, Repr

/-- Observable event of one routing call: a backend attempt on a model
(`attempt model i` is the `i`-th attempt on that model, 0-based, i.e. the
loop variable `attempt` of the source), or an `asyncio.sleep` of the given
duration in seconds. -/
inductive Event where
  | attempt (model : String) (idx : Nat)
  | sleep (duration : Nat)
deriving DecidableEq, Repr

/-- Model of the attempt events: the model name carried by an `attempt`
event, if any. -/
def Event.model? : Event → Option String
  | Event.attempt m _ => some m
  | Event.sleep _ => none

/-- Whether an event is a backend attempt. -/
def Event.isAttempt : Event → Bool
  | Event.attempt _ _ => true
  | Event.sleep _ => false

/-- Whether an event is a sleep. -/
def Event.isSleep : Event → Bool
  | Event.attempt _ _ => false
  | Event.sleep _ => true

/-- Python substring match of `needle` at the very front of `hay`. -/
def isSubAt : List Char → List Char → Bool
  | [], _ => true
  | _ :: _, [] => false
  | a :: as, b :: bs => a == b && isSubAt as bs

/-- Python's `needle in hay` substring containment on strings, over the
character lists. -/
def hasSub (needle : List Char) : List Char → Bool
  | [] => needle.isEmpty
  | b :: bs => isSubAt needle (b :: bs) || hasSub needle bs

/-- The literal markers tested by
`any(x in err for x in ["429", "quota", "404", "not found", "limit", "overloaded"])`
in `generate_raw_response`. -/
def FATAL_MARKERS : List String :=
  ["429", "quota", "404", "not found", "limit", "overloaded"]

/-- Classification of a (lowercased) exception text as a quota / not-found /
overload signal, exactly as the source's `any(x in err for x in [...])`. -/
def fatalErr (err : String) : Bool :=
  FATAL_MARKERS.any fun x => hasSub x.data err.data

/-- Python's `str.lower()` (`err = str(e).lower()` in the source), modelled
as character-wise lower-casing. -/
def pylower (s : String) : String :=
  String.mk (s.data.map Char.toLower)

/-- Python's `str.strip()` on a character list: drop whitespace from the
front, then from the back. -/
def stripList (l : List Char) : List Char :=
  ((l.dropWhile Char.isWhitespace).reverse.dropWhile Char.isWhitespace).reverse

/-- Python's `res.text.strip()`, modelled on Lean strings. -/
def pystrip (s : String) : String :=
  String.mk (stripList s.data)

/-- Helper of the source's candidate-list construction: append `m` to the
accumulated list unless it is already present (`if m not in models_to_try:
models_to_try.append(m)`). -/
def addIfAbsent (acc : List String) (m : String) : List String :=
  if m ∈ acc then acc else acc ++ [m]

/-- The local list `models_to_try` of `generate_raw_response`: the truthy
`model_name` first (Python treats both `None` and the empty string as
falsy), then each entry of `MODEL_PRIORITY` that is not already present. -/
def models_to_try (model_name : Option String) : List String :=
  MODEL_PRIORITY.foldl addIfAbsent
    (match model_name with
     | some m => if m = "" then [] else [m]
     | none => [])

/-- Model of `_call_model` (the awaited backend invocation under
`asyncio.wait_for`): it either returns the response object — `none` for a
falsy `res`, `some text` for a truthy one — or raises, `Except.error`
carrying `str(e)`.  A `TimeoutError` raised by `asyncio.wait_for` has the
empty string as its `str`. -/
def _call_model (f : String → String → Nat → Outcome) (model prompt : String)
    (attempt : Nat) : Except String (Option (Option String)) :=
  match f prompt model attempt with
  | Outcome.resp t => Except.ok (some t)
  | Outcome.noResp => Except.ok none
  | Outcome.timeout => Except.error ""
  | Outcome.exn msg => Except.error msg

/-- Shape of one non-returning, non-breaking loop iteration: record the
attempt, then the `await asyncio.sleep(1)` at the bottom of the loop body,
then whatever the remaining iterations produce. -/
def retryAfterSleep (next : Option String × List Event) (m : String)
    (a : Nat) : Option String × List Event :=
  (next.1, Event.attempt m a :: Event.sleep 1 :: next.2)

/-- The inner `for attempt in range(MAX_RETRIES)` loop of
`generate_raw_response`, for one candidate `m`: `a` is the current value of
the loop variable `attempt` and `r` the number of iterations left.  A truthy
`res` with truthy `res.text` returns the stripped text at once; a fatal
(quota / not-found / overload) exception text breaks out to the next
candidate, skipping the sleep; every other outcome falls through the sleep
into the next iteration. -/
def runAttempts (f : String → String → Nat → Outcome) (prompt m : String) :
    Nat → Nat → Option String × List Event
  | _, 0 => (none, [])
  | a, r + 1 =>
    match _call_model f m prompt a with
    | Except.ok (some (some t)) =>
      if t = "" then retryAfterSleep (runAttempts f prompt m (a + 1) r) m a
      else (some (pystrip t), [Event.attempt m a])
    | Except.ok (some none) =>
      retryAfterSleep (runAttempts f prompt m (a + 1) r) m a
    | Except.ok none =>
      retryAfterSleep (runAttempts f prompt m (a + 1) r) m a
    | Except.error e =>
      if fatalErr (pylower e) then (none, [Event.attempt m a])
      else retryAfterSleep (runAttempts f prompt m (a + 1) r) m a

/-- The outer `for model in models_to_try` loop of `generate_raw_response`:
run the retry loop on each candidate in order, returning the first success
and falling back to `None` when every candidate is exhausted. -/
def routeModels (f : String → String → Nat → Outcome) (prompt : String) :
    List String → Option String × List Event
  | [] => (none, [])
  | m :: rest =>
    match runAttempts f prompt m 0 MAX_RETRIES with
    | (some t, tr) => (some t, tr)
    | (none, tr) =>
      (routeModels f prompt rest |>.1, tr ++ (routeModels f prompt rest |>.2))

/-- The routing entry point `generate_raw_response(prompt, model_name)` of
`src/ai_service.py`, parameterised by the backend oracle `f`.  It returns
the routing result (`some text` for a success, `none` for the exhausted
failure) together with the trace of attempts and sleeps it performed. -/
def generate_raw_response (f : String → String → Nat → Outcome)
    (prompt : String) (model_name : Option String) :
    Option String × List Event :=
  routeModels f prompt (models_to_try model_name)

/-- Exception-propagating rendering of one non-returning, non-breaking loop
iteration: an uncaught exception of the remaining iterations would propagate
past the sleep. -/
def retryAfterSleepE (next : Except String (Option String × List Event))
    (m : String) (a : Nat) : Except String (Option String × List Event) :=
  match next with
  | Except.ok (res, tr) => Except.ok (res, Event.attempt m a :: Event.sleep 1 :: tr)
  | Except.error e => Except.error e

/-- Exception-propagating rendering of the retry loop: a raised backend
exception surfaces as an `Except.error` at the point of `_call_model`, and
the `except Exception as e` handler of the source — which catches every
`Exception` — absorbs it into the classification branch.  An exception this
rendering left uncaught would escape `generate_raw_response` to its
caller. -/
def runAttemptsE (f : String → String → Nat → Outcome) (prompt m : String) :
    Nat → Nat → Except String (Option String × List Event)
  | _, 0 => Except.ok (none, [])
  | a, r + 1 =>
    match _call_model f m prompt a with
    | Except.ok (some (some t)) =>
      if t = "" then retryAfterSleepE (runAttemptsE f prompt m (a + 1) r) m a
      else Except.ok (some (pystrip t), [Event.attempt m a])
    | Except.ok (some none) =>
      retryAfterSleepE (runAttemptsE f prompt m (a + 1) r) m a
    | Except.ok none =>
      retryAfterSleepE (runAttemptsE f prompt m (a + 1) r) m a
    | Except.error e =>
      if fatalErr (pylower e) then Except.ok (none, [Event.attempt m a])
      else retryAfterSleepE (runAttemptsE f prompt m (a + 1) r) m a

/-- Exception-propagating rendering of the outer candidate loop. -/
def routeModelsE (f : String → String → Nat → Outcome) (prompt : String) :
    List String → Except String (Option String × List Event)
  | [] => Except.ok (none, [])
  | m :: rest =>
    match runAttemptsE f prompt m 0 MAX_RETRIES with
    | Except.ok (some t, tr) => Except.ok (some t, tr)
    | Except.ok (none, tr) =>
      match routeModelsE f prompt rest with
      | Except.ok (res, tr2) => Except.ok (res, tr ++ tr2)
      | Except.error e => Except.error e
    | Except.error e => Except.error e

/-- Exception-propagating rendering of `generate_raw_response`: an
`Except.error` value would be an exception escaping to the caller. -/
def generate_raw_responseE (f : String → String → Nat → Outcome)
    (prompt : String) (model_name : Option String) :
    Except String (Option String × List Event) :=
  routeModelsE f prompt (models_to_try model_name)

/-- Models carried by the attempt events of a trace, in order. -/
def attemptModels (tr : List Event) : List String :=
  tr.filterMap Event.model?

/-- Durations of the sleep events of a trace, in order. -/
def sleepDurations (tr : List Event) : List Nat :=
  tr.filterMap fun e =>
    match e with
    | Event.sleep d => some d
    | Event.attempt _ _ => none

/-- An outcome on which the loop body neither returns nor breaks: the
iteration falls through the sleep into the next attempt on the same
model. -/
def NonFatalFailure (o : Outcome) : Prop :=
  o = Outcome.timeout ∨ o = Outcome.noResp ∨ o = Outcome.resp none ∨
    o = Outcome.resp (some "") ∨
    ∃ msg, o = Outcome.exn msg ∧ fatalErr (pylower msg) = false

theorem fatalErr_empty : fatalErr (pylower "") = false := by decide

theorem runAttempts_resp_nonempty {f : String → String → Nat → Outcome}
    {prompt m t : String} {a : Nat} (r : Nat)
    (ho : f prompt m a = Outcome.resp (some t)) (ht : t ≠ "") :
    runAttempts f prompt m a (r + 1) = (some (pystrip t), [Event.attempt m a]) := by
  simp [runAttempts, _call_model, ho, ht]

theorem runAttempts_fatal {f : String → String → Nat → Outcome}
    {prompt m msg : String} {a : Nat} (r : Nat)
    (ho : f prompt m a = Outcome.exn msg) (hf : fatalErr (pylower msg) = true) :
    runAttempts f prompt m a (r + 1) = (none, [Event.attempt m a]) := by
  simp [runAttempts, _call_model, ho, hf]

theorem runAttempts_continue {f : String → String → Nat → Outcome}
    {prompt m : String} {a : Nat} (r : Nat)
    (ho : NonFatalFailure (f prompt m a)) :
    runAttempts f prompt m a (r + 1) =
      retryAfterSleep (runAttempts f prompt m (a + 1) r) m a := by
  rcases ho with h | h | h | h | ⟨msg, h, hf⟩
  · simp [runAttempts, _call_model, h, fatalErr_empty]
  · simp [runAttempts, _call_model, h]
  · simp [runAttempts, _call_model, h]
  · simp [runAttempts, _call_model, h]
  · simp [runAttempts, _call_model, h, hf]

theorem runAttempts_events {f : String → String → Nat → Outcome}
    {prompt m : String} :
    ∀ (r a : Nat), ∀ e ∈ (runAttempts f prompt m a r).2,
      e = Event.sleep 1 ∨ ∃ i, e = Event.attempt m i := by
  intro r
  induction r with
  | zero => intro a e he; simp [runAttempts] at he
  | succ r ih =>
    intro a e he
    rcases ho : f prompt m a with t | _ | _ | msg
    · rcases t with _ | t
      · rw [runAttempts_continue r (Or.inr (Or.inr (Or.inl ho)))] at he
        simp only [retryAfterSleep, List.mem_cons] at he
        rcases he with rfl | rfl | hmem
        · exact Or.inr ⟨a, rfl⟩
        · exact Or.inl rfl
        · exact ih (a + 1) e hmem
      · by_cases ht : t = ""
        · subst ht
          rw [runAttempts_continue r (Or.inr (Or.inr (Or.inr (Or.inl ho))))] at he
          simp only [retryAfterSleep, List.mem_cons] at he
          rcases he with rfl | rfl | hmem
          · exact Or.inr ⟨a, rfl⟩
          · exact Or.inl rfl
          · exact ih (a + 1) e hmem
        · rw [runAttempts_resp_nonempty r ho ht] at he
          simp only [List.mem_singleton] at he
          exact Or.inr ⟨a, he⟩
    · rw [runAttempts_continue r (Or.inr (Or.inl ho))] at he
      simp only [retryAfterSleep, List.mem_cons] at he
      rcases he with rfl | rfl | hmem
      · exact Or.inr ⟨a, rfl⟩
      · exact Or.inl rfl
      · exact ih (a + 1) e hmem
    · rw [runAttempts_continue r (Or.inl ho)] at he
      simp only [retryAfterSleep, List.mem_cons] at he
      rcases he with rfl | rfl | hmem
      · exact Or.inr ⟨a, rfl⟩
      · exact Or.inl rfl
      · exact ih (a + 1) e hmem
    · by_cases hf : fatalErr (pylower msg)
      · rw [runAttempts_fatal r ho hf] at he
        simp only [List.mem_singleton] at he
        exact Or.inr ⟨a, he⟩
      · rw [runAttempts_continue r
            (Or.inr (Or.inr (Or.inr (Or.inr ⟨msg, ho, Bool.eq_false_iff.mpr hf⟩))))] at he
        simp only [retryAfterSleep, List.mem_cons] at he
        rcases he with rfl | rfl | hmem
        · exact Or.inr ⟨a, rfl⟩
        · exact Or.inl rfl
        · exact ih (a + 1) e hmem

theorem routeModels_events {f : String → String → Nat → Outcome}
    {prompt : String} :
    ∀ (cands : List String), ∀ e ∈ (routeModels f prompt cands).2,
      e = Event.sleep 1 ∨ ∃ m ∈ cands, ∃ i, e = Event.attempt m i := by
  intro cands
  induction cands with
  | nil => intro e he; simp [routeModels] at he
  | cons m rest ih =>
    intro e he
    rcases hr : runAttempts f prompt m 0 MAX_RETRIES with ⟨res, tr⟩
    rcases res with _ | t
    · simp only [routeModels, hr, List.mem_append] at he
      rcases he with hmem | hmem
      · rcases runAttempts_events MAX_RETRIES 0 e (by rw [hr]; exact hmem) with h | ⟨i, h⟩
        · exact Or.inl h
        · exact Or.inr ⟨m, List.mem_cons_self m rest, i, h⟩
      · rcases ih e hmem with h | ⟨m', hm', i, h⟩
        · exact Or.inl h
        · exact Or.inr ⟨m', List.mem_cons_of_mem m hm', i, h⟩
    · simp only [routeModels, hr] at he
      rcases runAttempts_events MAX_RETRIES 0 e (by rw [hr]; exact he) with h | ⟨i, h⟩
      · exact Or.inl h
      · exact Or.inr ⟨m, List.mem_cons_self m rest, i, h⟩

theorem runAttempts_success {f : String → String → Nat → Outcome}
    {prompt m : String} :
    ∀ (r a : Nat) {t : String}, (runAttempts f prompt m a r).1 = some t →
      ∃ i s, f prompt m i = Outcome.resp (some s) ∧ s ≠ "" ∧ t = pystrip s := by
  intro r
  induction r with
  | zero => intro a t h; simp [runAttempts] at h
  | succ r ih =>
    intro a t h
    rcases ho : f prompt m a with s | _ | _ | msg
    · rcases s with _ | s
      · rw [runAttempts_continue r (Or.inr (Or.inr (Or.inl ho)))] at h
        exact ih (a + 1) h
      · by_cases hs : s = ""
        · subst hs
          rw [runAttempts_continue r (Or.inr (Or.inr (Or.inr (Or.inl ho))))] at h
          exact ih (a + 1) h
        · rw [runAttempts_resp_nonempty r ho hs] at h
          simp only [Option.some.injEq] at h
          exact ⟨a, s, ho, hs, h.symm⟩
    · rw [runAttempts_continue r (Or.inr (Or.inl ho))] at h
      exact ih (a + 1) h
    · rw [runAttempts_continue r (Or.inl ho)] at h
      exact ih (a + 1) h
    · by_cases hf : fatalErr (pylower msg)
      · rw [runAttempts_fatal r ho hf] at h
        simp at h
      · rw [runAttempts_continue r
            (Or.inr (Or.inr (Or.inr (Or.inr ⟨msg, ho, Bool.eq_false_iff.mpr hf⟩))))] at h
        exact ih (a + 1) h

theorem routeModels_success {f : String → String → Nat → Outcome}
    {prompt : String} :
    ∀ (cands : List String) {t : String},
      (routeModels f prompt cands).1 = some t →
      ∃ m i s, f prompt m i = Outcome.resp (some s) ∧ s ≠ "" ∧ t = pystrip s := by
  intro cands
  induction cands with
  | nil => intro t h; simp [routeModels] at h
  | cons m rest ih =>
    intro t h
    rcases hr : runAttempts f prompt m 0 MAX_RETRIES with ⟨res, tr⟩
    rcases res with _ | s
    · simp only [routeModels, hr] at h
      exact ih h
    · simp only [routeModels, hr] at h
      rcases runAttempts_success MAX_RETRIES 0 (t := s) (by rw [hr]) with ⟨i, u, hu, hne, hps⟩
      have hst : s = t := by simpa using h
      exact ⟨m, i, u, hu, hne, hst ▸ hps⟩

theorem foldl_addIfAbsent :
    ∀ (tier : List String), tier.Nodup → ∀ acc : List String,
      tier.foldl addIfAbsent acc = acc ++ tier.filter (fun m => decide (m ∉ acc)) := by
  intro tier
  induction tier with
  | nil => intro _ acc; simp
  | cons m t ih =>
    intro hnd acc
    rcases List.nodup_cons.mp hnd with ⟨hm, ht⟩
    by_cases hacc : m ∈ acc
    · have h1 : addIfAbsent acc m = acc := if_pos hacc
      rw [List.foldl_cons, h1, ih ht acc]
      congr 1
      rw [List.filter_cons]
      simp [hacc]
    · have h1 : addIfAbsent acc m = acc ++ [m] := if_neg hacc
      rw [List.foldl_cons, h1, ih ht (acc ++ [m])]
      have h2 : t.filter (fun x => decide (x ∉ acc ++ [m]))
          = t.filter (fun x => decide (x ∉ acc)) := by
        refine List.filter_congr ?_
        intro x hx
        have hxm : x ≠ m := fun h => hm (h ▸ hx)
        simp [List.mem_append, hxm]
      rw [h2, List.filter_cons]
      simp [hacc]

theorem models_to_try_none : models_to_try none = MODEL_PRIORITY := by decide

theorem models_to_try_empty : models_to_try (some "") = MODEL_PRIORITY := by decide

theorem models_to_try_some {p : String} (hp : p ≠ "") :
    models_to_try (some p) = p :: MODEL_PRIORITY.filter (fun m => decide (m ≠ p)) := by
  have h := foldl_addIfAbsent MODEL_PRIORITY (by decide) [p]
  simp only [models_to_try, if_neg hp]
  rw [h, List.singleton_append]
  congr 1
  refine List.filter_congr ?_
  intro x _
  simp [List.mem_singleton]

theorem models_to_try_nodup (pref : Option String) : (models_to_try pref).Nodup := by
  rcases pref with _ | p
  · rw [models_to_try_none]; decide
  · by_cases hp : p = ""
    · subst hp; rw [models_to_try_empty]; decide
    · rw [models_to_try_some hp]
      refine List.nodup_cons.mpr ⟨?_, ?_⟩
      · intro hmem
        rcases List.mem_filter.mp hmem with ⟨_, hd⟩
        simp at hd
      · exact List.Nodup.filter _ (by decide : MODEL_PRIORITY.Nodup)

theorem models_to_try_ne_nil (pref : Option String) : models_to_try pref ≠ [] := by
  rcases pref with _ | p
  · rw [models_to_try_none]; decide
  · by_cases hp : p = ""
    · subst hp; rw [models_to_try_empty]; decide
    · rw [models_to_try_some hp]; simp

theorem head?_dropWhile_false {α : Type _} {p : α → Bool} {l : List α} {c : α}
    (h : (l.dropWhile p).head? = some c) : p c = false := by
  have hd := List.head?_dropWhile_not p l
  rw [h] at hd
  exact hd

theorem stripList_head {l : List Char} {c : Char}
    (h : (stripList l).head? = some c) : c.isWhitespace = false := by
  unfold stripList at h
  rw [List.head?_reverse] at h
  obtain ⟨pre, hpre⟩ :=
    List.dropWhile_suffix (l := (l.dropWhile Char.isWhitespace).reverse)
      Char.isWhitespace
  have hne :
      (l.dropWhile Char.isWhitespace).reverse.dropWhile Char.isWhitespace ≠ [] := by
    intro h0; rw [h0] at h; simp at h
  have hlast : ((l.dropWhile Char.isWhitespace).reverse).getLast? = some c := by
    rw [← hpre, List.getLast?_append_of_ne_nil _ hne, h]
  rw [List.getLast?_reverse] at hlast
  exact head?_dropWhile_false hlast

theorem stripList_last {l : List Char} {c : Char}
    (h : (stripList l).getLast? = some c) : c.isWhitespace = false := by
  unfold stripList at h
  rw [List.getLast?_reverse] at h
  exact head?_dropWhile_false h

theorem pairwise_of_all_eq {α : Type _} {R : α → α → Prop} {c : α} :
    ∀ {l : List α}, (∀ x ∈ l, x = c) → R c c → l.Pairwise R := by
  intro l
  induction l with
  | nil => intro _ _; exact List.Pairwise.nil
  | cons a t ih =>
    intro hall hR
    have ha : a = c := hall a (List.mem_cons_self a t)
    refine List.Pairwise.cons ?_ (ih (fun x hx => hall x (List.mem_cons_of_mem a hx)) hR)
    intro b hb
    rw [ha, hall b (List.mem_cons_of_mem a hb)]
    exact hR

theorem attemptModels_run {f : String → String → Nat → Outcome}
    {prompt m : String} (r a : Nat) :
    ∀ x ∈ attemptModels (runAttempts f prompt m a r).2, x = m := by
  intro x hx
  rcases List.mem_filterMap.mp hx with ⟨e, he, hme⟩
  rcases runAttempts_events r a e he with rfl | ⟨i, rfl⟩
  · simp [Event.model?] at hme
  · simp only [Event.model?, Option.some.injEq] at hme
    exact hme.symm

theorem attemptModels_route_mem {f : String → String → Nat → Outcome}
    {prompt : String} {cands : List String} :
    ∀ x ∈ attemptModels (routeModels f prompt cands).2, x ∈ cands := by
  intro x hx
  rcases List.mem_filterMap.mp hx with ⟨e, he, hme⟩
  rcases routeModels_events cands e he with rfl | ⟨m', hm', i, rfl⟩
  · simp [Event.model?] at hme
  · simp only [Event.model?, Option.some.injEq] at hme
    exact hme ▸ hm'

theorem routeModels_ordered (f : String → String → Nat → Outcome) (prompt : String) :
    ∀ (cands : List String), cands.Nodup →
      (attemptModels (routeModels f prompt cands).2).Pairwise
        (fun x y => cands.indexOf x ≤ cands.indexOf y) := by
  intro cands
  induction cands with
  | nil => intro _; simp [routeModels, attemptModels]
  | cons m rest ih =>
    intro hnd
    rcases List.nodup_cons.mp hnd with ⟨hm, hrest⟩
    rcases hr : runAttempts f prompt m 0 MAX_RETRIES with ⟨res, tr⟩
    have htr : ∀ x ∈ attemptModels tr, x = m := by
      intro x hx
      refine @attemptModels_run f prompt m MAX_RETRIES 0 x ?_
      rw [hr]
      exact hx
    rcases res with _ | t
    · simp only [routeModels, hr]
      rw [show attemptModels (tr ++ (routeModels f prompt rest).2)
            = attemptModels tr ++ attemptModels (routeModels f prompt rest).2 from
            List.filterMap_append _ _ _]
      refine List.pairwise_append.mpr ⟨?_, ?_, ?_⟩
      · exact pairwise_of_all_eq htr (le_refl _)
      · refine List.Pairwise.imp_of_mem ?_ (ih hrest)
        intro a b hain hbin hle
        have hamem : a ∈ rest := attemptModels_route_mem a hain
        have hbmem : b ∈ rest := attemptModels_route_mem b hbin
        have hane : m ≠ a := fun h => hm (h ▸ hamem)
        have hbne : m ≠ b := fun h => hm (h ▸ hbmem)
        rw [List.indexOf_cons_ne _ hane, List.indexOf_cons_ne _ hbne]
        exact Nat.succ_le_succ hle
      · intro a hain b _
        rw [htr a hain, List.indexOf_cons_self]
        exact Nat.zero_le _
    · simp only [routeModels, hr]
      exact pairwise_of_all_eq htr (le_refl _)

/-- Relation stating that two trace positions are not both backend
attempts. -/
def noTwoAtt (x y : Event) : Prop :=
  ¬(x.isAttempt = true ∧ y.isAttempt = true)

/-- Keep the events relevant to model `m`: its own attempts and every
sleep. -/
def keepFor (m : String) (e : Event) : Bool :=
  match e with
  | Event.sleep _ => true
  | Event.attempt m' _ => m' == m

theorem runAttempts_chain {f : String → String → Nat → Outcome}
    {prompt m : String} :
    ∀ (r a : Nat),
      List.Chain' (fun x y => x.isAttempt = true → y.isSleep = true)
        (runAttempts f prompt m a r).2 := by
  intro r
  induction r with
  | zero => intro a; simp [runAttempts]
  | succ r ih =>
    intro a
    have hcont : ∀ h : NonFatalFailure (f prompt m a),
        List.Chain' (fun x y => x.isAttempt = true → y.isSleep = true)
          (runAttempts f prompt m a (r + 1)).2 := by
      intro h
      rw [runAttempts_continue r h]
      simp only [retryAfterSleep]
      refine List.chain'_cons.mpr ⟨fun _ => rfl, ?_⟩
      refine List.chain'_cons'.mpr ⟨?_, ih (a + 1)⟩
      intro y _ hatt
      simp [Event.isAttempt] at hatt
    rcases ho : f prompt m a with t | _ | _ | msg
    · rcases t with _ | t
      · exact hcont (Or.inr (Or.inr (Or.inl ho)))
      · by_cases ht : t = ""
        · subst ht
          exact hcont (Or.inr (Or.inr (Or.inr (Or.inl ho))))
        · rw [runAttempts_resp_nonempty r ho ht]
          exact List.chain'_singleton _
    · exact hcont (Or.inr (Or.inl ho))
    · exact hcont (Or.inl ho)
    · by_cases hf : fatalErr (pylower msg)
      · rw [runAttempts_fatal r ho hf]
        exact List.chain'_singleton _
      · exact hcont
          (Or.inr (Or.inr (Or.inr (Or.inr ⟨msg, ho, Bool.eq_false_iff.mpr hf⟩))))

theorem chain_noTwoAtt_of_q {l : List Event}
    (h : List.Chain' (fun x y => x.isAttempt = true → y.isSleep = true) l) :
    List.Chain' noTwoAtt l := by
  refine List.Chain'.imp ?_ h
  intro a b hab hc
  rcases hc with ⟨ha, hb⟩
  have hs := hab ha
  cases b with
  | attempt m i => simp [Event.isSleep] at hs
  | sleep d => simp [Event.isAttempt] at hb

theorem chain_noTwoAtt_of_noAtt {l : List Event}
    (h : ∀ e ∈ l, e.isAttempt = false) : List.Chain' noTwoAtt l := by
  induction l with
  | nil => simp
  | cons a t ih =>
    refine List.chain'_cons'.mpr
      ⟨?_, ih fun e he => h e (List.mem_cons_of_mem a he)⟩
    intro y _ hc
    rcases hc with ⟨ha, _⟩
    rw [h a (List.mem_cons_self a t)] at ha
    simp at ha

theorem filter_keepFor_run_self {f : String → String → Nat → Outcome}
    {prompt m : String} (r a : Nat) :
    (runAttempts f prompt m a r).2.filter (keepFor m)
      = (runAttempts f prompt m a r).2 := by
  rw [List.filter_eq_self]
  intro e he
  rcases runAttempts_events r a e he with rfl | ⟨i, rfl⟩
  · rfl
  · simp [keepFor]

theorem filter_keepFor_run_other {f : String → String → Nat → Outcome}
    {prompt m k : String} (hne : k ≠ m) (r a : Nat) :
    ∀ e ∈ (runAttempts f prompt m a r).2.filter (keepFor k),
      e.isAttempt = false := by
  intro e he
  rcases List.mem_filter.mp he with ⟨hmem, hk⟩
  rcases runAttempts_events r a e hmem with rfl | ⟨i, rfl⟩
  · rfl
  · simp only [keepFor, beq_iff_eq] at hk
    exact ((hne hk.symm).elim)

theorem filter_keepFor_route_other {f : String → String → Nat → Outcome}
    {prompt : String} {cands : List String} {k : String} (hnk : k ∉ cands) :
    ∀ e ∈ (routeModels f prompt cands).2.filter (keepFor k),
      e.isAttempt = false := by
  intro e he
  rcases List.mem_filter.mp he with ⟨hmem, hk⟩
  rcases routeModels_events cands e hmem with rfl | ⟨m', hm', i, rfl⟩
  · rfl
  · simp only [keepFor, beq_iff_eq] at hk
    exact (absurd (hk ▸ hm') hnk)

theorem routeModels_separated (f : String → String → Nat → Outcome)
    (prompt : String) :
    ∀ (cands : List String), cands.Nodup → ∀ k : String,
      List.Chain' noTwoAtt
        ((routeModels f prompt cands).2.filter (keepFor k)) := by
  intro cands
  induction cands with
  | nil => intro _ k; simp [routeModels]
  | cons m0 rest ih =>
    intro hnd k
    rcases List.nodup_cons.mp hnd with ⟨hm0, hrest⟩
    rcases hr : runAttempts f prompt m0 0 MAX_RETRIES with ⟨res, tr⟩
    have htr_chain : List.Chain' noTwoAtt (tr.filter (keepFor k)) := by
      by_cases hmm : k = m0
      · subst hmm
        have hself : tr.filter (keepFor k) = tr := by
          have h := @filter_keepFor_run_self f prompt k MAX_RETRIES 0
          rw [hr] at h
          exact h
        rw [hself]
        have hq := @runAttempts_chain f prompt k MAX_RETRIES 0
        rw [hr] at hq
        exact chain_noTwoAtt_of_q hq
      · refine chain_noTwoAtt_of_noAtt ?_
        intro e he
        refine @filter_keepFor_run_other f prompt m0 k hmm MAX_RETRIES 0 e ?_
        rw [hr]
        exact he
    rcases res with _ | t
    · simp only [routeModels, hr]
      rw [List.filter_append]
      refine List.chain'_append.mpr ⟨htr_chain, ih hrest k, ?_⟩
      intro x hx y hy
      by_cases hmm : k = m0
      · subst hmm
        have hy' : y ∈ (routeModels f prompt rest).2.filter (keepFor k) :=
          List.mem_of_mem_head? hy
        have hyatt : y.isAttempt = false :=
          filter_keepFor_route_other hm0 y hy'
        intro hc
        rcases hc with ⟨_, hy''⟩
        rw [hyatt] at hy''
        simp at hy''
      · have hx' : x ∈ tr.filter (keepFor k) := List.mem_of_mem_getLast? hx
        have hxatt : x.isAttempt = false := by
          refine @filter_keepFor_run_other f prompt m0 k hmm MAX_RETRIES 0 x ?_
          rw [hr]
          exact hx'
        intro hc
        rcases hc with ⟨hx'', _⟩
        rw [hxatt] at hx''
        simp at hx''
    · simp only [routeModels, hr]
      exact htr_chain

theorem routeModels_sleep_one {f : String → String → Nat → Outcome}
    {prompt : String} {cands : List String} :
    ∀ d, Event.sleep d ∈ (routeModels f prompt cands).2 → d = 1 := by
  intro d hd
  rcases routeModels_events cands _ hd with h | ⟨m', _, i, h⟩
  · injection h
  · cases h

theorem retryAfterSleepE_ok (p : Option String × List Event) (m : String)
    (a : Nat) :
    retryAfterSleepE (Except.ok p) m a = Except.ok (retryAfterSleep p m a) := rfl

theorem runAttemptsE_eq {f : String → String → Nat → Outcome}
    {prompt m : String} :
    ∀ (r a : Nat),
      runAttemptsE f prompt m a r = Except.ok (runAttempts f prompt m a r) := by
  intro r
  induction r with
  | zero => intro a; rfl
  | succ r ih =>
    intro a
    rcases ho : f prompt m a with t | _ | _ | msg
    · rcases t with _ | t
      · simp [runAttemptsE, runAttempts, _call_model, ho, ih (a + 1),
          retryAfterSleepE_ok]
      · by_cases ht : t = ""
        · subst ht
          simp [runAttemptsE, runAttempts, _call_model, ho, ih (a + 1),
            retryAfterSleepE_ok]
        · simp [runAttemptsE, runAttempts, _call_model, ho, ht]
    · simp [runAttemptsE, runAttempts, _call_model, ho, ih (a + 1),
        retryAfterSleepE_ok]
    · simp [runAttemptsE, runAttempts, _call_model, ho, fatalErr_empty,
        ih (a + 1), retryAfterSleepE_ok]
    · by_cases hf : fatalErr (pylower msg)
      · simp [runAttemptsE, runAttempts, _call_model, ho, hf]
      · simp [runAttemptsE, runAttempts, _call_model, ho, hf, ih (a + 1),
          retryAfterSleepE_ok]

theorem routeModelsE_eq {f : String → String → Nat → Outcome}
    {prompt : String} :
    ∀ cands : List String,
      routeModelsE f prompt cands = Except.ok (routeModels f prompt cands) := by
  intro cands
  induction cands with
  | nil => rfl
  | cons m rest ih =>
    have he := @runAttemptsE_eq f prompt m MAX_RETRIES 0
    rcases hr : runAttempts f prompt m 0 MAX_RETRIES with ⟨res, tr⟩
    rw [hr] at he
    rcases res with _ | t
    · simp [routeModelsE, routeModels, he, hr, ih]
    · simp [routeModelsE, routeModels, he, hr]

/-- A model on which every attempt times out or raises a non-fatal
(transient) exception is attempted exactly `MAX_RETRIES = 2` times, each
attempt followed by the one-second sleep, and yields no result. -/
theorem runAttempts_all_transient {f : String → String → Nat → Outcome}
    {prompt m : String}
    (h : ∀ a, f prompt m a = Outcome.timeout ∨
      ∃ msg, f prompt m a = Outcome.exn msg ∧ fatalErr (pylower msg) = false) :
    runAttempts f prompt m 0 MAX_RETRIES
      = (none, [Event.attempt m 0, Event.sleep 1,
                Event.attempt m 1, Event.sleep 1]) := by
  have hnf : ∀ a, NonFatalFailure (f prompt m a) := by
    intro a
    rcases h a with ht | ⟨msg, hm, hfm⟩
    · exact Or.inl ht
    · exact Or.inr (Or.inr (Or.inr (Or.inr ⟨msg, hm, hfm⟩)))
  have step0 := @runAttempts_continue f prompt m 0 1 (hnf 0)
  have step1 := @runAttempts_continue f prompt m 1 0 (hnf 1)
  rw [show runAttempts f prompt m 0 MAX_RETRIES
      = retryAfterSleep (runAttempts f prompt m 1 1) m 0 from step0,
    show runAttempts f prompt m 1 1
      = retryAfterSleep (runAttempts f prompt m 2 0) m 1 from step1]
  rfl

theorem runAttempts_trace_ne_nil {f : String → String → Nat → Outcome}
    {prompt m : String} (a r : Nat) :
    (runAttempts f prompt m a (r + 1)).2 ≠ [] := by
  rcases ho : f prompt m a with t | _ | _ | msg
  · rcases t with _ | t
    · rw [runAttempts_continue r (Or.inr (Or.inr (Or.inl ho)))]
      simp [retryAfterSleep]
    · by_cases ht : t = ""
      · subst ht
        rw [runAttempts_continue r (Or.inr (Or.inr (Or.inr (Or.inl ho))))]
        simp [retryAfterSleep]
      · rw [runAttempts_resp_nonempty r ho ht]
        simp
  · rw [runAttempts_continue r (Or.inr (Or.inl ho))]
    simp [retryAfterSleep]
  · rw [runAttempts_continue r (Or.inl ho)]
    simp [retryAfterSleep]
  · by_cases hf : fatalErr (pylower msg)
    · rw [runAttempts_fatal r ho hf]
      simp
    · rw [runAttempts_continue r
        (Or.inr (Or.inr (Or.inr (Or.inr ⟨msg, ho, Bool.eq_false_iff.mpr hf⟩))))]
      simp [retryAfterSleep]

theorem routeModels_trace_ne_nil {f : String → String → Nat → Outcome}
    {prompt : String} {cands : List String} (hc : cands ≠ []) :
    (routeModels f prompt cands).2 ≠ [] := by
  rcases cands with _ | ⟨m, rest⟩
  · exact absurd rfl hc
  · have hrun : (runAttempts f prompt m 0 MAX_RETRIES).2 ≠ [] :=
      @runAttempts_trace_ne_nil f prompt m 0 1
    rcases hr : runAttempts f prompt m 0 MAX_RETRIES with ⟨res, tr⟩
    rw [hr] at hrun
    rcases res with _ | t
    · simp only [routeModels, hr]
      simp [hrun]
    · simp only [routeModels, hr]
      exact hrun

/-- The routing control flow inspects the prompt only by handing it to the
backend: for a backend oracle that ignores the prompt, routing is
independent of the prompt text. -/
theorem runAttempts_prompt_irrel (g : String → Nat → Outcome)
    (p1 p2 m : String) :
    ∀ (r a : Nat),
      runAttempts (fun _ => g) p1 m a r = runAttempts (fun _ => g) p2 m a r := by
  intro r
  induction r with
  | zero => intro a; rfl
  | succ r ih =>
    intro a
    have hsame : ∀ p : String, (fun _ : String => g) p m a = g m a := fun _ => rfl
    rcases ho : g m a with t | _ | _ | msg
    · rcases t with _ | t
      · rw [runAttempts_continue r (Or.inr (Or.inr (Or.inl ho))),
          runAttempts_continue r (Or.inr (Or.inr (Or.inl ho))), ih (a + 1)]
      · by_cases ht : t = ""
        · subst ht
          rw [runAttempts_continue r (Or.inr (Or.inr (Or.inr (Or.inl ho)))),
            runAttempts_continue r (Or.inr (Or.inr (Or.inr (Or.inl ho)))),
            ih (a + 1)]
        · rw [runAttempts_resp_nonempty r ho ht, runAttempts_resp_nonempty r ho ht]
    · rw [runAttempts_continue r (Or.inr (Or.inl ho)),
        runAttempts_continue r (Or.inr (Or.inl ho)), ih (a + 1)]
    · rw [runAttempts_continue r (Or.inl ho),
        runAttempts_continue r (Or.inl ho), ih (a + 1)]
    · by_cases hf : fatalErr (pylower msg)
      · rw [runAttempts_fatal r ho hf, runAttempts_fatal r ho hf]
      · rw [runAttempts_continue r
            (Or.inr (Or.inr (Or.inr (Or.inr ⟨msg, ho, Bool.eq_false_iff.mpr hf⟩)))),
          runAttempts_continue r
            (Or.inr (Or.inr (Or.inr (Or.inr ⟨msg, ho, Bool.eq_false_iff.mpr hf⟩)))),
          ih (a + 1)]

theorem routeModels_prompt_irrel (g : String → Nat → Outcome) (p1 p2 : String) :
    ∀ cands : List String,
      routeModels (fun _ => g) p1 cands = routeModels (fun _ => g) p2 cands := by
  intro cands
  induction cands with
  | nil => rfl
  | cons m rest ih =>
    have h := runAttempts_prompt_irrel g p1 p2 m MAX_RETRIES 0
    rcases hr : runAttempts (fun _ => g) p1 m 0 MAX_RETRIES with ⟨res, tr⟩
    rw [hr] at h
    rcases res with _ | t
    · simp only [routeModels, hr, ← h, ih]
    · simp only [routeModels, hr, ← h]

/-- Claim C1, counterexample: the claimed invariant "a Success result always
carries non-empty text; a whitespace-only backend response is treated as a
non-success" fails on the code.  With a backend whose every response text is
the single space `" "` (truthy in Python), the router returns a Success on
the very first attempt, and the text it carries — `" ".strip()` — is the
empty string. -/
theorem c1_counterexample :
    generate_raw_response (fun _ _ _ => Outcome.resp (some " ")) "hi" none
      = (some "", [Event.attempt "gemini-2.5-flash-lite" 0]) := by decide

/-- Claim C1, amended: an empty backend response text is indeed treated as a
non-success and triggers continued search; in particular, when every
candidate returns empty text on every attempt, `route` returns
ExhaustedFailure (`None`).  (Whitespace-only but non-empty text, by
contrast, is returned as a success carrying the stripped — possibly
empty — text, as the counterexample shows.) -/
theorem c1_empty_text_exhausts (f : String → String → Nat → Outcome)
    (prompt : String) (pref : Option String)
    (h : ∀ m a, f prompt m a = Outcome.resp (some "")) :
    (generate_raw_response f prompt pref).1 = none := by
  rcases hres : (generate_raw_response f prompt pref).1 with _ | t
  · rfl
  · exfalso
    rcases routeModels_success (models_to_try pref) hres with ⟨m, i, s, hs, hne, _⟩
    rw [h m i] at hs
    injection hs with hs'
    injection hs' with hs''
    exact hne hs''.symm

/-- Witness for C1: a concrete all-empty-text backend on which the amended
claim's hypothesis holds and `route` returns `None`. -/
theorem c1_witness :
    (generate_raw_response (fun _ _ _ => Outcome.resp (some "")) "hi" none).1
      = none :=
  c1_empty_text_exhausts _ "hi" none fun _ _ => rfl

/-- Claim C2: candidate-list construction and ordering.  Without a preferred
model the candidate list is exactly `MODEL_PRIORITY`; with a (truthy)
preferred model it is that model followed by the tier entries other than it,
in tier order; the list never contains duplicates; and the models of the
attempts actually performed by `generate_raw_response` appear in
candidate-list order (their positions in the candidate list are
monotonically non-decreasing along the trace — no reordering, no
randomization). -/
theorem c2_candidate_order :
    (models_to_try none = MODEL_PRIORITY) ∧
    (∀ p : String, p ≠ "" →
      models_to_try (some p)
        = p :: MODEL_PRIORITY.filter (fun m => decide (m ≠ p))) ∧
    (∀ pref : Option String, (models_to_try pref).Nodup) ∧
    (∀ (f : String → String → Nat → Outcome) (prompt : String)
        (pref : Option String),
      (attemptModels (generate_raw_response f prompt pref).2).Pairwise
        fun x y =>
          (models_to_try pref).indexOf x ≤ (models_to_try pref).indexOf y) :=
  ⟨models_to_try_none, fun _ hp => models_to_try_some hp, models_to_try_nodup,
   fun f prompt pref =>
     routeModels_ordered f prompt (models_to_try pref) (models_to_try_nodup pref)⟩

/-- Witness for C2: the preferred-model clause at a concrete model name not
in the tier list. -/
theorem c2_witness :
    models_to_try (some "my-model")
      = "my-model" :: MODEL_PRIORITY.filter (fun m => decide (m ≠ "my-model")) :=
  c2_candidate_order.2.1 "my-model" (by decide)

/-- Claim C3: an attempt whose exception text carries a rate-limit/quota or
not-found marker ends the inner loop at once (`break`): the model's
remaining retries are abandoned, no sleep happens, and the router advances.
Consequently, a backend that always raises such a signal makes the router
attempt every candidate exactly once (attempt index 0 only, no sleeps) and
return ExhaustedFailure (`None`). -/
theorem c3_fatal_abandons :
    (∀ (f : String → String → Nat → Outcome) (prompt m msg : String)
        (a r : Nat),
      f prompt m a = Outcome.exn msg → fatalErr (pylower msg) = true →
      runAttempts f prompt m a (r + 1) = (none, [Event.attempt m a])) ∧
    (∀ (f : String → String → Nat → Outcome) (prompt : String)
        (pref : Option String),
      (∀ m a, ∃ msg, f prompt m a = Outcome.exn msg ∧
        fatalErr (pylower msg) = true) →
      generate_raw_response f prompt pref
        = (none, (models_to_try pref).map fun m => Event.attempt m 0)) := by
  constructor
  · intro f prompt m msg a r ho hf
    exact runAttempts_fatal r ho hf
  · intro f prompt pref hall
    show routeModels f prompt (models_to_try pref)
      = (none, (models_to_try pref).map fun m => Event.attempt m 0)
    generalize models_to_try pref = cands
    induction cands with
    | nil => rfl
    | cons m rest ih =>
      obtain ⟨msg, ho, hf⟩ := hall m 0
      have hrun : runAttempts f prompt m 0 MAX_RETRIES
          = (none, [Event.attempt m 0]) :=
        show runAttempts f prompt m 0 (1 + 1) = _ from runAttempts_fatal 1 ho hf
      simp [routeModels, hrun, ih]

/-- Witness for C3: a concrete always-rate-limited backend; every candidate
of the default tier list is attempted exactly once and the result is
`None`. -/
theorem c3_witness :
    generate_raw_response
        (fun _ _ _ => Outcome.exn "429 RESOURCE_EXHAUSTED: quota") "hi" none
      = (none, MODEL_PRIORITY.map fun m => Event.attempt m 0) := by
  have h := c3_fatal_abandons.2
    (fun _ _ _ => Outcome.exn "429 RESOURCE_EXHAUSTED: quota") "hi" none
    (fun _ _ => ⟨"429 RESOURCE_EXHAUSTED: quota", rfl, by decide⟩)
  rw [h, models_to_try_none]

/-- Claim C4: `MAX_RETRIES` is 2; a timed-out attempt or a generic
transient (non-fatal) provider error consumes exactly one attempt and the
same model is retried next; an always-transient model is attempted exactly
`MAX_RETRIES = 2` times before yielding nothing; and a candidate whose
retry loop yields nothing is followed by the router advancing to the next
candidate. -/
theorem c4_transient_retries :
    (MAX_RETRIES = 2) ∧
    (∀ (f : String → String → Nat → Outcome) (prompt m : String) (a r : Nat),
      (f prompt m a = Outcome.timeout ∨
        ∃ msg, f prompt m a = Outcome.exn msg ∧
          fatalErr (pylower msg) = false) →
      runAttempts f prompt m a (r + 1)
        = ((runAttempts f prompt m (a + 1) r).1,
           Event.attempt m a :: Event.sleep 1
             :: (runAttempts f prompt m (a + 1) r).2)) ∧
    (∀ (f : String → String → Nat → Outcome) (prompt m : String),
      (∀ a, f prompt m a = Outcome.timeout ∨
        ∃ msg, f prompt m a = Outcome.exn msg ∧
          fatalErr (pylower msg) = false) →
      runAttempts f prompt m 0 MAX_RETRIES
        = (none, [Event.attempt m 0, Event.sleep 1,
                  Event.attempt m 1, Event.sleep 1])) ∧
    (∀ (f : String → String → Nat → Outcome) (prompt m : String)
        (rest : List String),
      (runAttempts f prompt m 0 MAX_RETRIES).1 = none →
      routeModels f prompt (m :: rest)
        = ((routeModels f prompt rest).1,
           (runAttempts f prompt m 0 MAX_RETRIES).2
             ++ (routeModels f prompt rest).2)) := by
  refine ⟨rfl, ?_, ?_, ?_⟩
  · intro f prompt m a r h
    have hnf : NonFatalFailure (f prompt m a) := by
      rcases h with ht | ⟨msg, hm, hfm⟩
      · exact Or.inl ht
      · exact Or.inr (Or.inr (Or.inr (Or.inr ⟨msg, hm, hfm⟩)))
    rw [runAttempts_continue r hnf]
    rfl
  · intro f prompt m h
    exact runAttempts_all_transient h
  · intro f prompt m rest hnone
    rcases hr : runAttempts f prompt m 0 MAX_RETRIES with ⟨res, tr⟩
    rw [hr] at hnone
    simp only at hnone
    subst hnone
    simp [routeModels, hr]

/-- Witness for C4: a concrete always-timing-out backend performs exactly
two attempts (indices 0 and 1) on a model, each followed by the sleep. -/
theorem c4_witness :
    runAttempts (fun _ _ _ => Outcome.timeout) "p" "gemini-2.5-flash" 0
        MAX_RETRIES
      = (none, [Event.attempt "gemini-2.5-flash" 0, Event.sleep 1,
                Event.attempt "gemini-2.5-flash" 1, Event.sleep 1]) :=
  c4_transient_retries.2.2.1 _ "p" "gemini-2.5-flash" fun _ => Or.inl rfl

/-- Claim C5, counterexample: the claimed exponential, strictly increasing
backoff (`base^attempt`, base > 1) fails on the code.  For a candidate that
always raises a generic transient error, under `MAX_RETRIES = 2`, the sleep
durations recorded while processing that candidate are `[1, 1]` — the
constant `asyncio.sleep(1)` — which is not strictly increasing. -/
theorem c5_counterexample :
    sleepDurations (runAttempts (fun _ _ _ => Outcome.exn "temporary glitch")
        "p" "gemini-2.5-flash-lite" 0 MAX_RETRIES).2 = [1, 1] ∧
    ¬ List.Chain' (fun x y => x < y)
      (sleepDurations (runAttempts (fun _ _ _ => Outcome.exn "temporary glitch")
        "p" "gemini-2.5-flash-lite" 0 MAX_RETRIES).2) := by
  have hs : sleepDurations (runAttempts
      (fun _ _ _ => Outcome.exn "temporary glitch")
      "p" "gemini-2.5-flash-lite" 0 MAX_RETRIES).2 = [1, 1] := by decide
  refine ⟨hs, ?_⟩
  rw [hs]
  intro hch
  rcases List.chain'_cons.mp hch with ⟨hlt, _⟩
  exact lt_irrefl 1 hlt

/-- Claim C5, amended: every delay the router waits is the constant 1 time
unit (`asyncio.sleep(1)`), after every non-returning, non-breaking attempt;
in particular an always-transient candidate under `MAX_RETRIES = 2` incurs
the constant delays `[1, 1]`, not an increasing sequence. -/
theorem c5_constant_delay :
    (∀ (f : String → String → Nat → Outcome) (prompt : String)
        (pref : Option String) (d : Nat),
      Event.sleep d ∈ (generate_raw_response f prompt pref).2 → d = 1) ∧
    (∀ (f : String → String → Nat → Outcome) (prompt m : String),
      (∀ a, f prompt m a = Outcome.timeout ∨
        ∃ msg, f prompt m a = Outcome.exn msg ∧
          fatalErr (pylower msg) = false) →
      sleepDurations (runAttempts f prompt m 0 MAX_RETRIES).2 = [1, 1]) := by
  constructor
  · intro f prompt pref d hd
    exact routeModels_sleep_one d hd
  · intro f prompt m h
    rw [runAttempts_all_transient h]
    rfl

/-- Witness for C5: the amended claim applied to a concrete
always-timing-out backend. -/
theorem c5_witness :
    sleepDurations (runAttempts (fun _ _ _ => Outcome.timeout) "p"
        "gemini-2.5-flash-lite" 0 MAX_RETRIES).2 = [1, 1] :=
  c5_constant_delay.2 _ "p" "gemini-2.5-flash-lite" fun _ => Or.inl rfl

/-- Claim C6: a successful attempt with non-empty text returns the stripped
text at once — a single attempt event, no further retries on that model;
a candidate whose retry loop succeeds ends the candidate sweep, so no
later candidate is tried; and concretely, a first candidate that times out
on its first `MAX_RETRIES - 1 = 1` attempt and then succeeds makes `route`
return that success with only the first candidate ever attempted. -/
theorem c6_success_immediate :
    (∀ (f : String → String → Nat → Outcome) (prompt m t : String) (a r : Nat),
      f prompt m a = Outcome.resp (some t) → t ≠ "" →
      runAttempts f prompt m a (r + 1)
        = (some (pystrip t), [Event.attempt m a])) ∧
    (∀ (f : String → String → Nat → Outcome) (prompt m : String)
        (rest : List String) (t : String),
      (runAttempts f prompt m 0 MAX_RETRIES).1 = some t →
      routeModels f prompt (m :: rest)
        = (some t, (runAttempts f prompt m 0 MAX_RETRIES).2)) ∧
    (∀ (f : String → String → Nat → Outcome) (prompt t : String),
      f prompt "gemini-2.5-flash-lite" 0 = Outcome.timeout →
      f prompt "gemini-2.5-flash-lite" 1 = Outcome.resp (some t) → t ≠ "" →
      generate_raw_response f prompt none
        = (some (pystrip t),
           [Event.attempt "gemini-2.5-flash-lite" 0, Event.sleep 1,
            Event.attempt "gemini-2.5-flash-lite" 1])) := by
  refine ⟨?_, ?_, ?_⟩
  · intro f prompt m t a r ho ht
    exact runAttempts_resp_nonempty r ho ht
  · intro f prompt m rest t hsome
    rcases hr : runAttempts f prompt m 0 MAX_RETRIES with ⟨res, tr⟩
    rw [hr] at hsome
    simp only at hsome
    subst hsome
    simp [routeModels, hr]
  · intro f prompt t h0 h1 hne
    have e0 := @runAttempts_continue f prompt "gemini-2.5-flash-lite" 0 1 (Or.inl h0)
    have e1 := @runAttempts_resp_nonempty f prompt "gemini-2.5-flash-lite" t 1 0 h1 hne
    have hrun : runAttempts f prompt "gemini-2.5-flash-lite" 0 MAX_RETRIES
        = (some (pystrip t),
           [Event.attempt "gemini-2.5-flash-lite" 0, Event.sleep 1,
            Event.attempt "gemini-2.5-flash-lite" 1]) := by
      rw [show runAttempts f prompt "gemini-2.5-flash-lite" 0 MAX_RETRIES
          = retryAfterSleep (runAttempts f prompt "gemini-2.5-flash-lite" 1 1)
              "gemini-2.5-flash-lite" 0 from e0,
        show runAttempts f prompt "gemini-2.5-flash-lite" 1 1
          = (some (pystrip t), [Event.attempt "gemini-2.5-flash-lite" 1])
          from e1]
      rfl
    show routeModels f prompt (models_to_try none) = _
    rw [models_to_try_none,
      show MODEL_PRIORITY = "gemini-2.5-flash-lite"
        :: ["gemini-2.5-flash", "gemini-2.0-flash", "gemini-2.0-flash-lite",
            "gemini-2.0-flash-exp", "gemini-2.5-pro"] from rfl]
    simp [routeModels, hrun]

/-- Witness for C6: a concrete backend that times out on attempt 0 of the
first candidate and succeeds with text `" ok "` on attempt 1; `route`
returns the stripped text with no later candidate tried. -/
theorem c6_witness :
    generate_raw_response
        (fun _ _ a => if a = 1 then Outcome.resp (some " ok ")
          else Outcome.timeout) "hi" none
      = (some (pystrip " ok "),
         [Event.attempt "gemini-2.5-flash-lite" 0, Event.sleep 1,
          Event.attempt "gemini-2.5-flash-lite" 1]) :=
  c6_success_immediate.2.2 _ "hi" " ok " (by decide) (by decide) (by decide)

/-- Claim C7: no exception escapes `generate_raw_response` from within
backend invocation.  The exception-propagating rendering of the router —
in which a raised backend exception surfaces as an `Except.error` unless a
handler absorbs it — always produces `Except.ok` of the total routing
result, for every backend behaviour (any exception text, any result): the
catch-all `except Exception` converts every failure into routing control
flow, and the only terminal outcome after exhausting all candidates is the
`None` (ExhaustedFailure) result inside the `ok`. -/
theorem c7_no_exception_escapes (f : String → String → Nat → Outcome)
    (prompt : String) (model_name : Option String) :
    generate_raw_responseE f prompt model_name
      = Except.ok (generate_raw_response f prompt model_name) :=
  routeModelsE_eq (models_to_try model_name)

/-- Claim C8, counterexample: the claim that an empty prompt is rejected
before entering the router — no routing attempts made for it — fails on
the code: neither `generate_raw_response` nor the HTTP layer checks the
prompt, and with an empty prompt the router performs its full candidate
sweep (here: one attempt per candidate under an always-rate-limited
backend). -/
theorem c8_counterexample :
    (generate_raw_response (fun _ _ _ => Outcome.exn "429") "" none).2
        = MODEL_PRIORITY.map (fun m => Event.attempt m 0) ∧
    (generate_raw_response (fun _ _ _ => Outcome.exn "429") "" none).2 ≠ [] := by
  constructor
  · decide
  · decide

/-- Claim C8, amended: the router imposes no non-emptiness precondition on
the prompt: routing behaviour is a function of the backend outcomes alone
(identical for any two prompt texts under a prompt-ignoring backend), and
for every backend and every preferred model the empty prompt still
triggers at least one routing attempt. -/
theorem c8_no_empty_prompt_rejection :
    (∀ (g : String → Nat → Outcome) (pref : Option String) (p1 p2 : String),
      generate_raw_response (fun _ => g) p1 pref
        = generate_raw_response (fun _ => g) p2 pref) ∧
    (∀ (f : String → String → Nat → Outcome) (pref : Option String),
      (generate_raw_response f "" pref).2 ≠ []) :=
  ⟨fun g pref p1 p2 => routeModels_prompt_irrel g p1 p2 (models_to_try pref),
   fun f pref =>
     routeModels_trace_ne_nil (f := f) (models_to_try_ne_nil pref)⟩

/-- Claim C9: minimum inter-attempt delay.  In every trace of
`generate_raw_response`, restricted to any one model's attempts and the
sleeps, no two attempts are adjacent — consecutive attempts on the same
model always have a sleep between them — and every sleep lasts at least 1
time unit, so the router never issues two attempts on the same model with
zero intervening delay. -/
theorem c9_min_delay :
    (∀ (f : String → String → Nat → Outcome) (prompt : String)
        (pref : Option String) (m : String),
      List.Chain' noTwoAtt
        ((generate_raw_response f prompt pref).2.filter (keepFor m))) ∧
    (∀ (f : String → String → Nat → Outcome) (prompt : String)
        (pref : Option String) (d : Nat),
      Event.sleep d ∈ (generate_raw_response f prompt pref).2 → 1 ≤ d) := by
  constructor
  · intro f prompt pref m
    exact routeModels_separated f prompt (models_to_try pref)
      (models_to_try_nodup pref) m
  · intro f prompt pref d hd
    have h1 := routeModels_sleep_one d hd
    rw [h1]

/-- Witness for C9: a concrete trace containing a sleep, on which the
sleep-duration bound of the claim is discharged. -/
theorem c9_witness :
    Event.sleep 1 ∈ (generate_raw_response (fun _ _ _ => Outcome.timeout)
        "p" none).2 ∧ (1 : Nat) ≤ 1 :=
  ⟨by decide,
   c9_min_delay.2 (fun _ _ _ => Outcome.timeout) "p" none 1 (by decide)⟩

/-- Claim C10: every text a successful route call returns is the backend's
response text passed through `strip()`: it arises as `pystrip` of some
non-empty backend response, and consequently has neither a leading nor a
trailing whitespace character. -/
theorem c10_stripped_output (f : String → String → Nat → Outcome)
    (prompt : String) (pref : Option String) (r : String) (tr : List Event)
    (h : generate_raw_response f prompt pref = (some r, tr)) :
    (∃ m i s, f prompt m i = Outcome.resp (some s) ∧ s ≠ "" ∧ r = pystrip s) ∧
    (∀ c, r.data.head? = some c → c.isWhitespace = false) ∧
    (∀ c, r.data.getLast? = some c → c.isWhitespace = false) := by
  have h1 : (generate_raw_response f prompt pref).1 = some r := by rw [h]
  rcases routeModels_success (models_to_try pref) h1 with ⟨m, i, s, hs, hne, hps⟩
  refine ⟨⟨m, i, s, hs, hne, hps⟩, ?_, ?_⟩
  · intro c hc
    rw [hps] at hc
    exact stripList_head hc
  · intro c hc
    rw [hps] at hc
    exact stripList_last hc

/-- Witness for C10: a concrete backend returning `" leafy "`; the routed
result `"leafy"` is its stripped text. -/
theorem c10_witness :
    ∃ m i s,
      (fun (_ _ : String) (_ : Nat) => Outcome.resp (some " leafy ")) "p" m i
          = Outcome.resp (some s) ∧ s ≠ "" ∧ "leafy" = pystrip s :=
  (c10_stripped_output (fun _ _ _ => Outcome.resp (some " leafy ")) "p" none
    "leafy" [Event.attempt "gemini-2.5-flash-lite" 0] (by decide)).1

end Sprout
